import Mathlib

/-!
Verification of the IFSC finder bot's matching core
(`src/telegram_ifsc_bot.py`, functions `load_csv` and `search_ifsc`)
against its natural-language specification.

Python strings are modelled as lists of Unicode code points (`List Nat`);
this makes Python's `str` comparison the lexicographic order on `List Nat`
and keeps every definition executable and kernel-decidable.  Scores that
difflib computes as floats are modelled as exact rationals (`ℚ`, built with
`Rat.divInt`); for the short ASCII data handled by the bot the two agree.
-/

/-- Python `str`, modelled as the list of its code points. -/
abbrev PyStr := List Nat

/-- Code points of a Lean string literal; used to write concrete inputs. -/
def pystr (s : String) : PyStr := s.data.map Char.toNat

/-- ASCII case folding of one code point, as `str.lower` acts on the
Latin-script data this program handles: `A`..`Z` (65..90) map 32 up. -/
def lowerCh (n : Nat) : Nat := if 65 ≤ n ∧ n ≤ 90 then n + 32 else n

/-- Python `str.lower` (ASCII fragment): case-fold every code point. -/
def pyLower (s : PyStr) : PyStr := s.map lowerCh

/-- Python `str.isspace` on the ASCII code points `str.strip` removes:
space (32) and the control whitespace 9..13. -/
def pySpace (n : Nat) : Bool := n == 32 || (decide (9 ≤ n) && decide (n ≤ 13))

/-- Drop trailing whitespace (the right half of Python `str.strip`). -/
def stripEnd (s : PyStr) : PyStr := (s.reverse.dropWhile pySpace).reverse

/-- Python `str.strip()`: remove leading and trailing whitespace. -/
def pyStrip (s : PyStr) : PyStr := stripEnd (s.dropWhile pySpace)

/-- The query-side normalisation `x.strip().lower()` applied by
`search_ifsc` (lines 68-70 of the source) to each input field. -/
def pyNorm (s : PyStr) : PyStr := pyLower (pyStrip s)

/-- Does `pat` occur at the head of `s`?  Helper for substring search. -/
def headMatch : PyStr → PyStr → Bool
  | _, [] => true
  | [], _ :: _ => false
  | h :: t, ph :: pt => h == ph && headMatch t pt

/-- The literal-substring reading of line 92's
`Series.str.contains(branch_lower, na=False)`.  pandas' default there is
`regex=True`, so this reading is faithful exactly when the pattern is
free of regex metacharacters (`regexFree` below; the agreement is proved
in `reSearch_eq_pyContains` against the regex model `reSearch`) and
diverges otherwise — `"."` matches any character, and an invalid pattern
such as `"("` raises `re.error` in the program.  `na=False` is immaterial
because the column was made non-null by `astype(str)`. -/
def pyContains : PyStr → PyStr → Bool
  | [], pat => pat.isEmpty
  | h :: t, pat => headMatch (h :: t) pat || pyContains t pat

/-- Is the code point one of Python `re`'s special characters
`. ^ $ * + ? \x7b \x7d [ ] \ | ( )`? -/
def reMeta (n : Nat) : Bool :=
  n == 46 || n == 94 || n == 36 || n == 42 || n == 43 || n == 63 || n == 123 ||
    n == 125 || n == 91 || n == 93 || n == 92 || n == 124 || n == 40 || n == 41

/-- A pattern free of regex metacharacters: `re.search` treats it as a
literal, so regex containment is substring containment. -/
def regexFree (pat : PyStr) : Bool := pat.all (fun n => !(reMeta n))

/-- One-position regex match for patterns built from literal code points
and the metacharacter `.` (46), which matches any code point except the
newline 10 (no DOTALL, as in the program). -/
def reHeadMatch : PyStr → PyStr → Bool
  | _, [] => true
  | [], _ :: _ => false
  | c :: t, p :: pt => (if p == 46 then !(c == 10) else c == p) && reHeadMatch t pt

/-- `re.search` for patterns built from literal code points and `.`: does
the pattern match at some position of `s`?  This is the regex semantics
pandas applies on line 92 for this pattern class. -/
def reSearch : PyStr → PyStr → Bool
  | [], pat => pat.isEmpty
  | c :: t, pat => reHeadMatch (c :: t) pat || reSearch t pat

/-!
Embedding of `difflib.get_close_matches` / `difflib.SequenceMatcher`
(CPython standard library), as invoked at line 86 of the source:
`difflib.get_close_matches(branch_lower, branches, n=3, cutoff=0.4)`.
`get_close_matches` constructs `SequenceMatcher()` with `isjunk=None`, so
the junk set `bjunk` is empty throughout; `autojunk` stays enabled, so
code points occurring in more than `len(b)//100 + 1` positions of a `b`
with `len(b) >= 200` are purged from the `b2j` position table.
-/

/-- Is code point `c` "popular" in `b` in difflib's autojunk sense? -/
def popularCh (b : PyStr) (c : Nat) : Bool :=
  decide (200 ≤ b.length) && decide (b.length / 100 + 1 < b.count c)

/-- difflib's `b2j` table: the ascending positions of `c` in `b`, with
autojunk-popular code points purged. -/
def b2j (b : PyStr) (c : Nat) : List Nat :=
  if popularCh b c then [] else (List.range b.length).filter (fun j => b.getD j 0 == c)

/-- Lookup in the `j2len` dictionary (assoc list, newest binding first);
a missing key yields 0, as `dict.get(k, 0)` does. -/
def alookup (l : List (Nat × Nat)) (j : Nat) : Nat :=
  match l.find? (fun p => p.1 == j) with
  | some p => p.2
  | none => 0

/-- Inner loop of `find_longest_match` over the `b2j` positions of `a[i]`:
`j < blo` is skipped (`continue`), `j >= bhi` stops the scan (`break`),
otherwise `k = j2len.get(j-1, 0) + 1` extends the run ending at `(i, j)`
and the best triple is updated when `k > bestsize`.  A `j` of 0 has no
predecessor, matching Python's absent key `-1`. -/
def flmInner (i blo bhi : Nat) (j2len : List (Nat × Nat)) :
    List Nat → List (Nat × Nat) → Nat × Nat × Nat → List (Nat × Nat) × (Nat × Nat × Nat)
  | [], newj2len, best => (newj2len, best)
  | j :: js, newj2len, best =>
    if j < blo then flmInner i blo bhi j2len js newj2len best
    else if bhi ≤ j then (newj2len, best)
    else
      let k := (if j == 0 then 0 else alookup j2len (j - 1)) + 1
      let best2 := if best.2.2 < k then (i + 1 - k, j + 1 - k, k) else best
      flmInner i blo bhi j2len js ((j, k) :: newj2len) best2

/-- Outer loop of `find_longest_match` over `i` in `range(alo, ahi)`. -/
def flmLoop (a b : PyStr) (blo bhi : Nat) :
    List Nat → List (Nat × Nat) → Nat × Nat × Nat → Nat × Nat × Nat
  | [], _, best => best
  | i :: is, j2len, best =>
    let s := flmInner i blo bhi j2len (b2j b (a.getD i 0)) [] best
    flmLoop a b blo bhi is s.1 s.2

/-- The first `while` loop after the table scan: extend the best block
leftwards over equal, non-junk elements (the junk set is empty here, so
the condition is plain equality).  Fuel bounds the descent of `besti`. -/
def extendLeft (a b : PyStr) (alo blo : Nat) : Nat → Nat × Nat × Nat → Nat × Nat × Nat
  | 0, best => best
  | fuel + 1, (bi, bj, bs) =>
    if alo < bi && blo < bj && (a.getD (bi - 1) 0 == b.getD (bj - 1) 0) then
      extendLeft a b alo blo fuel (bi - 1, bj - 1, bs + 1)
    else (bi, bj, bs)

/-- The second `while` loop: extend the best block rightwards over equal,
non-junk elements. -/
def extendRight (a b : PyStr) (ahi bhi : Nat) : Nat → Nat × Nat × Nat → Nat × Nat × Nat
  | 0, best => best
  | fuel + 1, (bi, bj, bs) =>
    if bi + bs < ahi && bj + bs < bhi && (a.getD (bi + bs) 0 == b.getD (bj + bs) 0) then
      extendRight a b ahi bhi fuel (bi, bj, bs + 1)
    else (bi, bj, bs)

/-- `SequenceMatcher.find_longest_match(alo, ahi, blo, bhi)` with
`a`, `b` the two sequences.  The two junk-extension `while` loops of the
original never execute because `bjunk` is empty, and are omitted. -/
def find_longest_match (a b : PyStr) (alo ahi blo bhi : Nat) : Nat × Nat × Nat :=
  let best := flmLoop a b blo bhi (List.range' alo (ahi - alo)) [] (alo, blo, 0)
  let best2 := extendLeft a b alo blo a.length best
  extendRight a b ahi bhi a.length best2

/-- Total size of the matching blocks of `get_matching_blocks`, by the
same window recursion it performs (recurse left of the longest match when
`alo < i and blo < j`, right of it when `i+k < ahi and j+k < bhi`); the
final sort/coalescing of blocks cannot change the size total.  Fuel
bounds the recursion depth, which shrinks the window sum each step. -/
def matchTotal (a b : PyStr) : Nat → Nat → Nat → Nat → Nat → Nat
  | 0, _, _, _, _ => 0
  | fuel + 1, alo, ahi, blo, bhi =>
    let m := find_longest_match a b alo ahi blo bhi
    let i := m.1
    let j := m.2.1
    let k := m.2.2
    if k = 0 then 0
    else
      k + (if alo < i && blo < j then matchTotal a b fuel alo i blo j else 0) +
        (if i + k < ahi && j + k < bhi then matchTotal a b fuel (i + k) ahi (j + k) bhi else 0)

/-- difflib's `_calculate_ratio(matches, length)`: `2.0*matches/length`,
and 1.0 when both sequences are empty. -/
def calcRatioQ (m t : Nat) : ℚ := if t = 0 then 1 else Rat.divInt (2 * m) t

/-- `SequenceMatcher.ratio()` for `a` against `b`. -/
def ratioQ (a b : PyStr) : ℚ :=
  calcRatioQ (matchTotal a b (a.length + b.length + 1) 0 a.length 0 b.length)
    (a.length + b.length)

/-- Matches counted by `SequenceMatcher.quick_ratio()`: the multiset
intersection size of the two sequences. -/
def quickTotal (a b : PyStr) : Nat :=
  a.dedup.foldl (fun acc c => acc + min (a.count c) (b.count c)) 0

/-- `SequenceMatcher.quick_ratio()`, an upper bound on `ratio()`. -/
def quickRatioQ (a b : PyStr) : ℚ := calcRatioQ (quickTotal a b) (a.length + b.length)

/-- `SequenceMatcher.real_quick_ratio()`, the cheapest upper bound. -/
def realQuickRatioQ (a b : PyStr) : ℚ :=
  calcRatioQ (min a.length b.length) (a.length + b.length)

/-- The cutoff filter of `get_close_matches`: the candidate survives when
all three ratio stages reach the cutoff (the two quick ratios are upper
bounds of `ratio`, so this equals `cutoff ≤ ratio`; all three tests are
kept as in the source). -/
def gcmPred (word : PyStr) (cutoff : ℚ) (x : PyStr) : Bool :=
  decide (cutoff ≤ realQuickRatioQ x word) && decide (cutoff ≤ quickRatioQ x word) &&
    decide (cutoff ≤ ratioQ x word)

/-- Descending order on difflib's `(score, word)` pairs: `p` may precede
`q` when `p`'s pair is lexicographically at least `q`'s, exactly the
order realised by `heapq.nlargest` (equivalent to
`sorted(result, reverse=True)[:n]`; Python compares such tuples
lexicographically, strings by code point). -/
def sortKeyGe (p q : ℚ × PyStr) : Prop := toLex q ≤ toLex p

instance : DecidableRel sortKeyGe :=
  fun p q => inferInstanceAs (Decidable (toLex q ≤ toLex p))

instance : IsTotal (ℚ × PyStr) sortKeyGe :=
  ⟨fun p q => (le_total (toLex p) (toLex q)).symm⟩

instance : IsTrans (ℚ × PyStr) sortKeyGe :=
  ⟨fun _ _ _ h1 h2 => le_trans h2 h1⟩

/-- `difflib.get_close_matches(word, possibilities, n, cutoff)`: score the
candidates that pass the cutoff, keep the `n` largest `(score, word)`
pairs in descending order, return the words.  Equal pairs are identical,
so any sort realising the descending order yields `heapq.nlargest`'s
output. -/
def get_close_matches (word : PyStr) (possibilities : List PyStr) (n : Nat) (cutoff : ℚ) :
    List PyStr :=
  let result := (possibilities.filter (gcmPred word cutoff)).map (fun x => (ratioQ x word, x))
  ((List.insertionSort sortKeyGe result).take n).map Prod.snd

/-!
Data model and `load_csv` (source lines 53-63).  The CSV has already been
read and decoded by pandas upstream (encoding detection is the
transport's job); a row is its cells for the three key columns plus the
IFSC code, which suffices to identify a record.  A missing cell is a
pandas `NaN`, which `astype(str)` renders as the literal string `"nan"`.
`load_csv` strips whitespace from the three key columns and raises
nothing; `LoadError` mirrors the specification's error taxonomy so that
claims about failure are statable, and no input is ever sent to it.
-/

/-- One raw CSV data row; `none` is a missing cell (pandas `NaN`). -/
structure RawRow where
  state : Option PyStr
  bank : Option PyStr
  branch : Option PyStr
  ifsc : PyStr
deriving DecidableEq

/-- One loaded record of the in-memory dataframe. -/
structure Record where
  state : PyStr
  bank : PyStr
  branch : PyStr
  ifsc : PyStr
deriving DecidableEq

/-- pandas `astype(str)` on one cell: a missing value becomes `"nan"`. -/
def cellStr : Option PyStr → PyStr
  | some s => s
  | none => pystr "nan"

/-- The per-row work of `load_csv`: `astype(str).str.strip()` on the
State, Bank and Branch columns (lines 60-62); other columns untouched. -/
def stripRow (r : RawRow) : Record :=
  { state := pyStrip (cellStr r.state)
    bank := pyStrip (cellStr r.bank)
    branch := pyStrip (cellStr r.branch)
    ifsc := r.ifsc }

/-- The error taxonomy named by the specification.  The source defines no
such exceptions and never raises on row content. -/
inductive LoadError where
  | emptyDataset
  | loadFailure
deriving DecidableEq

/-- The loaded dataframe: every row is kept, in order. -/
def loadRecords (rows : List RawRow) : List Record := rows.map stripRow

/-- `load_csv` (lines 53-63): read rows, strip the three key columns.  It
has no failure path for row content — in particular no emptiness check —
so every input maps to `Except.ok`. -/
def load_csv (rows : List RawRow) : Except LoadError (List Record) :=
  Except.ok (loadRecords rows)

/-!
`search_ifsc` (source lines 66-94).  The three query fields are
normalised with `.strip().lower()`; the dataframe filters compare the
stored (already stripped) columns lowered against them.
-/

/-- The exact-match filter (lines 73-77): all three lowered columns equal
the normalised query fields. -/
def exactMatches (df : List Record) (sl bl brl : PyStr) : List Record :=
  df.filter (fun r => pyLower r.state == sl && pyLower r.bank == bl && pyLower r.branch == brl)

/-- The rows of the current (state, bank) scope (lines 82-85). -/
def scopeRows (df : List Record) (sl bl : PyStr) : List Record :=
  df.filter (fun r => pyLower r.state == sl && pyLower r.bank == bl)

/-- The branch candidate pool: lowered branch names of the scope rows
(line 85), duplicates and all. -/
def scopePool (df : List Record) (sl bl : PyStr) : List PyStr :=
  (scopeRows df sl bl).map (fun r => pyLower r.branch)

/-- The partial-match fallback filter (lines 89-93): same scope, branch
column containing the query as a substring. -/
def partialMatches (df : List Record) (sl bl brl : PyStr) : List Record :=
  df.filter (fun r =>
    pyLower r.state == sl && pyLower r.bank == bl && pyContains (pyLower r.branch) brl)

/-- Line 89-93 under pandas' actual regex semantics, for patterns built
from literal code points and `.`: what the program really returns from
the partial tier for such branch queries.  On `regexFree` patterns it
coincides with `partialMatches` (`partialMatchesRe_eq` below). -/
def partialMatchesRe (df : List Record) (sl bl brl : PyStr) : List Record :=
  df.filter (fun r =>
    pyLower r.state == sl && pyLower r.bank == bl && reSearch (pyLower r.branch) brl)

/-- `search_ifsc(state, bank, branch)` (lines 66-94): return the exact
matches with suggestion value `None` when any exist; otherwise return the
partial matches together with up to 3 fuzzy branch suggestions drawn from
the full scope pool at cutoff 0.4. -/
def search_ifsc (df : List Record) (state bank branch : PyStr) :
    List Record × Option (List PyStr) :=
  if exactMatches df (pyNorm state) (pyNorm bank) (pyNorm branch) = [] then
    (partialMatches df (pyNorm state) (pyNorm bank) (pyNorm branch),
      some (get_close_matches (pyNorm branch)
        (scopePool df (pyNorm state) (pyNorm bank)) 3 (Rat.divInt 2 5)))
  else (exactMatches df (pyNorm state) (pyNorm bank) (pyNorm branch), none)

/-!
Normalisation lemmas: `strip` and `lower` are idempotent and commute, so
a field that has been stripped at load time and case-folded is a fixed
point of the query-side normalisation.
-/

theorem lowerCh_lowerCh (n : Nat) : lowerCh (lowerCh n) = lowerCh n := by
  unfold lowerCh
  by_cases h : 65 ≤ n ∧ n ≤ 90
  · rw [if_pos h, if_neg (by omega)]
  · rw [if_neg h, if_neg h]

theorem pySpace_lowerCh (n : Nat) : pySpace (lowerCh n) = pySpace n := by
  unfold lowerCh
  by_cases h : 65 ≤ n ∧ n ≤ 90
  · rw [if_pos h]
    unfold pySpace
    have e1 : (n + 32 == 32) = false := beq_eq_false_iff_ne.mpr (by omega)
    have e2 : (n == 32) = false := beq_eq_false_iff_ne.mpr (by omega)
    have e3 : decide (n + 32 ≤ 13) = false := decide_eq_false (by omega)
    have e4 : decide (n ≤ 13) = false := decide_eq_false (by omega)
    rw [e1, e2, e3, e4]
    simp
  · rw [if_neg h]

theorem pyLower_pyLower (s : PyStr) : pyLower (pyLower s) = pyLower s := by
  unfold pyLower
  rw [List.map_map]
  exact List.map_congr_left fun a _ => lowerCh_lowerCh a

theorem dropWhile_pySpace_dropWhile (l : PyStr) :
    (l.dropWhile pySpace).dropWhile pySpace = l.dropWhile pySpace := by
  induction l with
  | nil => rfl
  | cons a t ih =>
    by_cases h : pySpace a
    · simp only [List.dropWhile_cons, h, if_true]
      exact ih
    · simp only [List.dropWhile_cons, h, if_false]
      simp [h]

theorem stripEnd_stripEnd (l : PyStr) : stripEnd (stripEnd l) = stripEnd l := by
  unfold stripEnd
  rw [List.reverse_reverse, dropWhile_pySpace_dropWhile]

theorem dropWhile_stripEnd (l : PyStr) (h : l.dropWhile pySpace = l) :
    (stripEnd l).dropWhile pySpace = stripEnd l := by
  cases l with
  | nil => rfl
  | cons a t =>
    have ha : pySpace a = false := by
      by_contra hc
      rw [Bool.not_eq_false] at hc
      rw [List.dropWhile_cons, if_pos hc] at h
      have hlen := congrArg List.length h
      have hle := (List.dropWhile_sublist (p := pySpace) (l := t)).length_le
      simp only [List.length_cons] at hlen
      omega
    unfold stripEnd
    rw [List.reverse_cons, List.dropWhile_append]
    split
    · simp [List.dropWhile_cons, ha]
    · rw [List.reverse_append]
      simp [List.dropWhile_cons, ha]

theorem pyStrip_pyStrip (s : PyStr) : pyStrip (pyStrip s) = pyStrip s := by
  unfold pyStrip
  rw [dropWhile_stripEnd _ (dropWhile_pySpace_dropWhile s), stripEnd_stripEnd]

theorem dropWhile_pySpace_pyLower (l : PyStr) :
    (pyLower l).dropWhile pySpace = pyLower (l.dropWhile pySpace) := by
  have hps : pySpace ∘ lowerCh = pySpace := funext pySpace_lowerCh
  unfold pyLower
  rw [List.dropWhile_map, hps]

theorem stripEnd_pyLower (l : PyStr) : stripEnd (pyLower l) = pyLower (stripEnd l) := by
  have hps : pySpace ∘ lowerCh = pySpace := funext pySpace_lowerCh
  unfold stripEnd pyLower
  rw [← List.map_reverse, List.dropWhile_map, hps, List.map_reverse]

theorem pyStrip_pyLower (s : PyStr) : pyStrip (pyLower s) = pyLower (pyStrip s) := by
  unfold pyStrip
  rw [dropWhile_pySpace_pyLower, stripEnd_pyLower]

theorem pyNorm_lower_strip (u : PyStr) :
    pyNorm (pyLower (pyStrip u)) = pyLower (pyStrip u) := by
  unfold pyNorm
  rw [pyStrip_pyLower, pyStrip_pyStrip, pyLower_pyLower]

/-!
On metacharacter-free patterns the regex model agrees with the
literal-substring model, so the substring reading of line 92 is faithful
exactly there.
-/

theorem reHeadMatch_eq_headMatch : ∀ pat : PyStr, regexFree pat = true →
    ∀ s : PyStr, reHeadMatch s pat = headMatch s pat := by
  intro pat
  induction pat with
  | nil =>
    intro _ s
    cases s <;> rfl
  | cons p pt ih =>
    intro h s
    rw [regexFree, List.all_cons, Bool.and_eq_true] at h
    obtain ⟨hp, hpt⟩ := h
    have hne : (p == 46) = false := by
      rw [beq_eq_false_iff_ne]
      intro hc
      subst hc
      exact absurd hp (by decide)
    cases s with
    | nil => rfl
    | cons c t =>
      show ((if p == 46 then !(c == 10) else c == p) && reHeadMatch t pt) =
        (c == p && headMatch t pt)
      rw [hne, if_neg (by simp), ih hpt t]

theorem reSearch_eq_pyContains (pat : PyStr) (h : regexFree pat = true) :
    ∀ s : PyStr, reSearch s pat = pyContains s pat := by
  intro s
  induction s with
  | nil => rfl
  | cons c t ih =>
    show (reHeadMatch (c :: t) pat || reSearch t pat) =
      (headMatch (c :: t) pat || pyContains t pat)
    rw [reHeadMatch_eq_headMatch pat h, ih]

theorem partialMatchesRe_eq (df : List Record) (sl bl brl : PyStr)
    (h : regexFree brl = true) :
    partialMatchesRe df sl bl brl = partialMatches df sl bl brl := by
  unfold partialMatchesRe partialMatches
  apply List.filter_congr
  intro r _
  rw [reSearch_eq_pyContains brl h]

/-!
Lemmas about `get_close_matches`: its output is drawn from the candidate
pool and passes the cutoff filter, is capped at `n` entries, and is
descending in the `(score, word)` order.
-/

theorem mem_get_close_matches {x word : PyStr} {ps : List PyStr} {n : Nat} {c : ℚ}
    (h : x ∈ get_close_matches word ps n c) : x ∈ ps ∧ gcmPred word c x = true := by
  unfold get_close_matches at h
  simp only [List.mem_map] at h
  obtain ⟨p, hp, rfl⟩ := h
  have hp2 : p ∈ List.insertionSort sortKeyGe
      ((ps.filter (gcmPred word c)).map fun x => (ratioQ x word, x)) :=
    List.mem_of_mem_take hp
  rw [(List.perm_insertionSort _ _).mem_iff] at hp2
  simp only [List.mem_map] at hp2
  obtain ⟨y, hy, rfl⟩ := hp2
  exact ⟨(List.mem_filter.mp hy).1, (List.mem_filter.mp hy).2⟩

theorem length_get_close_matches (word : PyStr) (ps : List PyStr) (n : Nat) (c : ℚ) :
    (get_close_matches word ps n c).length ≤ n := by
  unfold get_close_matches
  simp only [List.length_map, List.length_take]
  exact min_le_left _ _

theorem pairwise_get_close_matches (word : PyStr) (ps : List PyStr) (n : Nat) (c : ℚ) :
    List.Pairwise (fun x y => toLex (ratioQ y word, y) ≤ toLex (ratioQ x word, x))
      (get_close_matches word ps n c) := by
  unfold get_close_matches
  have hsorted : List.Pairwise sortKeyGe
      (List.insertionSort sortKeyGe ((ps.filter (gcmPred word c)).map fun x => (ratioQ x word, x))) :=
    List.sorted_insertionSort sortKeyGe _
  have htake : List.Pairwise sortKeyGe
      ((List.insertionSort sortKeyGe ((ps.filter (gcmPred word c)).map fun x => (ratioQ x word, x))).take n) :=
    hsorted.sublist (List.take_sublist n _)
  have hmem : ∀ p ∈ (List.insertionSort sortKeyGe
      ((ps.filter (gcmPred word c)).map fun x => (ratioQ x word, x))).take n,
      p.1 = ratioQ p.2 word := by
    intro p hp
    have hp2 := List.mem_of_mem_take hp
    rw [(List.perm_insertionSort _ _).mem_iff] at hp2
    simp only [List.mem_map] at hp2
    obtain ⟨y, _, rfl⟩ := hp2
    rfl
  rw [List.pairwise_map]
  refine List.Pairwise.imp_of_mem ?_ htake
  intro p q hpmem hqmem hpq
  have e1 := hmem p hpmem
  have e2 := hmem q hqmem
  rw [← e1, ← e2]
  exact hpq

/-!
Concrete datasets used by the witnesses and counterexamples.
-/

/-- The single raw row of the specification's end-to-end scenario 1. -/
def rowHdfc : RawRow :=
  ⟨some (pystr "Delhi"), some (pystr "HDFC Bank"), some (pystr "Connaught Place"),
    pystr "HDFC0000123"⟩

/-- Scenario 1's row once loaded. -/
def recHdfc : Record :=
  ⟨pystr "Delhi", pystr "HDFC Bank", pystr "Connaught Place", pystr "HDFC0000123"⟩

/-- Scenario 1's dataset once loaded. -/
def dfHdfc : List Record := loadRecords [rowHdfc]

/-- Two branches of one (state, bank) scope whose names score equally
against the query `"b"`: exposes the tie-break order. -/
def dfTie : List Record := loadRecords
  [⟨some (pystr "Delhi"), some (pystr "X"), some (pystr "AB"), pystr "I1"⟩,
   ⟨some (pystr "Delhi"), some (pystr "X"), some (pystr "CB"), pystr "I2"⟩]

/-- The specification's alias example, loaded. -/
def recSbi : Record :=
  ⟨pystr "Delhi", pystr "STATE BANK OF INDIA", pystr "Main", pystr "SBIN0000691"⟩

/-- Dataset holding only the alias example's row. -/
def dfSbi : List Record := loadRecords
  [⟨some (pystr "Delhi"), some (pystr "STATE BANK OF INDIA"), some (pystr "Main"),
    pystr "SBIN0000691"⟩]

/-- A scope whose only branch name shares no character with the query. -/
def dfFar : List Record := loadRecords
  [⟨some (pystr "Delhi"), some (pystr "X"), some (pystr "zzz"), pystr "I3"⟩]

/-- A region whose name contains an interior space. -/
def rowNewDelhi : RawRow :=
  ⟨some (pystr "New Delhi"), some (pystr "X"), some (pystr "B"), pystr "I4"⟩

/-- The interior-space row once loaded. -/
def recNewDelhi : Record := ⟨pystr "New Delhi", pystr "X", pystr "B", pystr "I4"⟩

/-- Dataset holding only the interior-space row. -/
def dfNewDelhi : List Record := loadRecords [rowNewDelhi]

/-- Claim C1: for every record loaded into the index, searching with that
record's normalised (region, institution, branch) triple — trimmed and
case-folded — returns that record. -/
theorem C1_round_trip (rows : List RawRow) (r : Record) (h : r ∈ loadRecords rows) :
    r ∈ (search_ifsc (loadRecords rows) (pyLower r.state) (pyLower r.bank)
      (pyLower r.branch)).1 := by
  rw [loadRecords, List.mem_map] at h
  obtain ⟨raw, hraw, rfl⟩ := h
  have hs : pyNorm (pyLower (stripRow raw).state) = pyLower (stripRow raw).state :=
    pyNorm_lower_strip (cellStr raw.state)
  have hb : pyNorm (pyLower (stripRow raw).bank) = pyLower (stripRow raw).bank :=
    pyNorm_lower_strip (cellStr raw.bank)
  have hbr : pyNorm (pyLower (stripRow raw).branch) = pyLower (stripRow raw).branch :=
    pyNorm_lower_strip (cellStr raw.branch)
  have hmem : stripRow raw ∈ exactMatches (loadRecords rows)
      (pyNorm (pyLower (stripRow raw).state)) (pyNorm (pyLower (stripRow raw).bank))
      (pyNorm (pyLower (stripRow raw).branch)) := by
    rw [hs, hb, hbr]
    refine List.mem_filter.mpr ⟨?_, ?_⟩
    · rw [loadRecords, List.mem_map]
      exact ⟨raw, hraw, rfl⟩
    · simp
  rw [search_ifsc, if_neg (List.ne_nil_of_mem hmem)]
  exact hmem

/-- Claim C1 witness: the scenario-1 record round-trips concretely. -/
theorem C1_round_trip_witness :
    recHdfc ∈ loadRecords [rowHdfc] ∧
      recHdfc ∈ (search_ifsc (loadRecords [rowHdfc]) (pyLower recHdfc.state)
        (pyLower recHdfc.bank) (pyLower recHdfc.branch)).1 :=
  ⟨by decide, C1_round_trip [rowHdfc] recHdfc (by decide)⟩

/-- Claim C2 counterexample: on scenario 1's dataset, the query
`("delhi", "hdfc", "connaught")` returns no records and no suggestions —
the institution token `"hdfc"` differs from the stored `"hdfc bank"`, the
code has no institution alias or fuzzy tier, and the branch scope is
therefore empty — contradicting the claimed return of the single record. -/
theorem C2_counterexample :
    search_ifsc dfHdfc (pystr "delhi") (pystr "hdfc") (pystr "connaught") =
      ([], some []) := by decide

/-- Claim C2 as amended: the institution must match exactly after
normalisation; with institution `"hdfc bank"` supplied, the branch token
`"connaught"` resolves through the partial-substring tier to the single
record, with `"connaught place"` offered as a fuzzy suggestion. -/
theorem C2_amended_exact_institution :
    search_ifsc dfHdfc (pystr "delhi") (pystr "hdfc bank") (pystr "connaught") =
      ([recHdfc], some [pystr "connaught place"]) := by decide

/-- Claim C3 counterexample: with `"STATE BANK OF INDIA"` present in the
dataset, the institution token `"sbi"` resolves nothing — there is no
alias table in the code — so the search returns no records and no
suggestions instead of resolving to the canonical name. -/
theorem C3_counterexample :
    search_ifsc dfSbi (pystr "delhi") (pystr "sbi") (pystr "main") =
      ([], some []) := by decide

/-- Claim C3 as amended: the code has no alias tier; an institution token
contributes to a result only through exact normalised equality with the
stored institution name, at every tier of `search_ifsc`. -/
theorem C3_amended_exact_only (df : List Record) (s b br : PyStr) (r : Record)
    (h : r ∈ (search_ifsc df s b br).1) : pyLower r.bank = pyNorm b := by
  rw [search_ifsc] at h
  by_cases hE : exactMatches df (pyNorm s) (pyNorm b) (pyNorm br) = []
  · rw [if_pos hE] at h
    have h2 := List.mem_filter.mp h
    simp only [Bool.and_eq_true, beq_iff_eq] at h2
    exact h2.2.1.2
  · rw [if_neg hE] at h
    have h2 := List.mem_filter.mp h
    simp only [Bool.and_eq_true, beq_iff_eq] at h2
    exact h2.2.1.2

/-- Claim C3 witness: the full normalised institution name does match,
and the matched record's institution equals the normalised query. -/
theorem C3_amended_witness :
    recSbi ∈ (search_ifsc dfSbi (pystr "delhi") (pystr "state bank of india")
        (pystr "main")).1 ∧
      pyLower recSbi.bank = pyNorm (pystr "state bank of india") :=
  ⟨by decide,
    C3_amended_exact_only dfSbi (pystr "delhi") (pystr "state bank of india")
      (pystr "main") recSbi (by decide)⟩

/-- Claim C4 counterexample: branches `"ab"` and `"cb"` score equally
against the query `"b"`, yet the suggestion list puts `"cb"` first —
ties at equal score are broken by descending, not ascending, lexical
order of the candidate. -/
theorem C4_counterexample :
    (search_ifsc dfTie (pystr "delhi") (pystr "x") (pystr "b")).2 =
        some [pystr "cb", pystr "ab"] ∧
      ratioQ (pystr "cb") (pystr "b") = ratioQ (pystr "ab") (pystr "b") ∧
      toLex (ratioQ (pystr "ab") (pystr "b"), pystr "ab") <
        toLex (ratioQ (pystr "cb") (pystr "b"), pystr "cb") :=
  ⟨by decide, by decide, by decide⟩

/-- Claim C4 as amended: every suggestion list carries at most 3 entries
and is sorted descending by similarity score, with ties at equal score
broken by descending lexical order of the candidate string (the pairwise
relation below is exactly the descending lexicographic order on difflib's
`(score, candidate)` pairs). -/
theorem C4_amended_sorted (df : List Record) (s b br : PyStr) (l : List PyStr)
    (h : (search_ifsc df s b br).2 = some l) :
    l.length ≤ 3 ∧
      List.Pairwise
        (fun x y => toLex (ratioQ y (pyNorm br), y) ≤ toLex (ratioQ x (pyNorm br), x)) l := by
  rw [search_ifsc] at h
  by_cases hE : exactMatches df (pyNorm s) (pyNorm b) (pyNorm br) = []
  · rw [if_pos hE] at h
    have h2 : some (get_close_matches (pyNorm br)
        (scopePool df (pyNorm s) (pyNorm b)) 3 (Rat.divInt 2 5)) = some l := h
    obtain rfl : get_close_matches (pyNorm br)
        (scopePool df (pyNorm s) (pyNorm b)) 3 (Rat.divInt 2 5) = l := Option.some.inj h2
    exact ⟨length_get_close_matches _ _ _ _, pairwise_get_close_matches _ _ _ _⟩
  · rw [if_neg hE] at h
    have h2 : (none : Option (List PyStr)) = some l := h
    exact Option.noConfusion h2

/-- Claim C4 witness: an empty dataset yields the empty, trivially
sorted suggestion list. -/
theorem C4_amended_sorted_witness :
    ([] : List PyStr).length ≤ 3 ∧
      List.Pairwise
        (fun x y => toLex (ratioQ y (pyNorm (pystr "b")), y) ≤
          toLex (ratioQ x (pyNorm (pystr "b")), x)) ([] : List PyStr) :=
  C4_amended_sorted [] (pystr "d") (pystr "x") (pystr "b") [] (by decide)

/-- Claim C5 counterexample: the scope holds the candidate `"zzz"`, yet
the query `"aaaa"` receives no suggestions at all — the candidate scored
0, below the 0.4 cutoff, and was discarded rather than offered as the
closest available. -/
theorem C5_counterexample :
    scopePool dfFar (pystr "delhi") (pystr "x") = [pystr "zzz"] ∧
      (search_ifsc dfFar (pystr "delhi") (pystr "x") (pystr "aaaa")).2 = some [] :=
  ⟨by decide, by decide⟩

/-- Claim C5 as amended: suggestions are computed over the full
(state, bank) scope pool, but a similarity cutoff of 0.4 is applied:
every suggested candidate comes from the scope pool and scores at least
0.4 against the normalised query. -/
theorem C5_amended_cutoff (df : List Record) (s b br : PyStr) (l : List PyStr)
    (x : PyStr) (h : (search_ifsc df s b br).2 = some l) (hx : x ∈ l) :
    x ∈ scopePool df (pyNorm s) (pyNorm b) ∧ Rat.divInt 2 5 ≤ ratioQ x (pyNorm br) := by
  rw [search_ifsc] at h
  by_cases hE : exactMatches df (pyNorm s) (pyNorm b) (pyNorm br) = []
  · rw [if_pos hE] at h
    have h2 : some (get_close_matches (pyNorm br)
        (scopePool df (pyNorm s) (pyNorm b)) 3 (Rat.divInt 2 5)) = some l := h
    obtain rfl : get_close_matches (pyNorm br)
        (scopePool df (pyNorm s) (pyNorm b)) 3 (Rat.divInt 2 5) = l := Option.some.inj h2
    obtain ⟨hmem, hpred⟩ := mem_get_close_matches hx
    refine ⟨hmem, ?_⟩
    unfold gcmPred at hpred
    simp only [Bool.and_eq_true, decide_eq_true_eq] at hpred
    exact hpred.2
  · rw [if_neg hE] at h
    have h2 : (none : Option (List PyStr)) = some l := h
    exact Option.noConfusion h2

/-- Claim C5 witness: the accepted suggestion `"connaught place"` indeed
lies in the scope pool and scores at least 0.4. -/
theorem C5_amended_cutoff_witness :
    pystr "connaught place" ∈
        scopePool dfHdfc (pyNorm (pystr "delhi")) (pyNorm (pystr "hdfc bank")) ∧
      Rat.divInt 2 5 ≤ ratioQ (pystr "connaught place") (pyNorm (pystr "connaught")) :=
  C5_amended_cutoff dfHdfc (pystr "delhi") (pystr "hdfc bank") (pystr "connaught")
    [pystr "connaught place"] (pystr "connaught place") (by decide) (by decide)

/-- Claim C6: every record returned and every branch suggestion offered
comes from rows whose normalised (state, bank) pair equals the pair in
the query; no foreign scope leaks into results or suggestions. -/
theorem C6_scoping (df : List Record) (s b br : PyStr) :
    (∀ r ∈ (search_ifsc df s b br).1,
        pyLower r.state = pyNorm s ∧ pyLower r.bank = pyNorm b) ∧
      (∀ l, (search_ifsc df s b br).2 = some l → ∀ sg ∈ l,
        ∃ r ∈ df, pyLower r.state = pyNorm s ∧ pyLower r.bank = pyNorm b ∧
          sg = pyLower r.branch) := by
  constructor
  · intro r hr
    rw [search_ifsc] at hr
    by_cases hE : exactMatches df (pyNorm s) (pyNorm b) (pyNorm br) = []
    · rw [if_pos hE] at hr
      have h2 := List.mem_filter.mp hr
      simp only [Bool.and_eq_true, beq_iff_eq] at h2
      exact ⟨h2.2.1.1, h2.2.1.2⟩
    · rw [if_neg hE] at hr
      have h2 := List.mem_filter.mp hr
      simp only [Bool.and_eq_true, beq_iff_eq] at h2
      exact ⟨h2.2.1.1, h2.2.1.2⟩
  · intro l hl sg hsg
    rw [search_ifsc] at hl
    by_cases hE : exactMatches df (pyNorm s) (pyNorm b) (pyNorm br) = []
    · rw [if_pos hE] at hl
      have h2 : some (get_close_matches (pyNorm br)
          (scopePool df (pyNorm s) (pyNorm b)) 3 (Rat.divInt 2 5)) = some l := hl
      obtain rfl : get_close_matches (pyNorm br)
          (scopePool df (pyNorm s) (pyNorm b)) 3 (Rat.divInt 2 5) = l := Option.some.inj h2
      obtain ⟨hpool, -⟩ := mem_get_close_matches hsg
      rw [scopePool, List.mem_map] at hpool
      obtain ⟨r, hr, rfl⟩ := hpool
      have h3 := List.mem_filter.mp hr
      simp only [Bool.and_eq_true, beq_iff_eq] at h3
      exact ⟨r, h3.1, h3.2.1, h3.2.2, rfl⟩
    · rw [if_neg hE] at hl
      have h2 : (none : Option (List PyStr)) = some l := hl
      exact Option.noConfusion h2

/-- Claim C6 witness: the suggestion `"cb"` for the tie dataset comes
from a row of the queried (delhi, x) scope. -/
theorem C6_scoping_witness :
    ∃ r ∈ dfTie, pyLower r.state = pyNorm (pystr "delhi") ∧
      pyLower r.bank = pyNorm (pystr "x") ∧ pystr "cb" = pyLower r.branch :=
  (C6_scoping dfTie (pystr "delhi") (pystr "x") (pystr "b")).2
    [pystr "cb", pystr "ab"] (by decide) (pystr "cb") (by decide)

/-- Claim C7 counterexample: loading a readable dataset with zero rows
succeeds with an empty index; no `EmptyDatasetError` is produced. -/
theorem C7_counterexample :
    load_csv [] = Except.ok [] ∧
      load_csv [] ≠ Except.error LoadError.emptyDataset :=
  ⟨rfl, fun h => Except.noConfusion h⟩

/-- Claim C7 as amended: building the index never fails — any readable
dataset, including one yielding zero usable rows, loads successfully,
an empty dataset producing an empty index; the code defines no
`EmptyDatasetError`. -/
theorem C7_amended_never_fails (rows : List RawRow) :
    ∃ recs, load_csv rows = Except.ok recs ∧ (rows = [] → recs = []) :=
  ⟨loadRecords rows, rfl, fun h => by rw [h]; rfl⟩

/-- Claim C7 witness: instantiated at the empty dataset. -/
theorem C7_amended_never_fails_witness :
    ∃ recs, load_csv [] = Except.ok recs ∧ (([] : List RawRow) = [] → recs = []) :=
  C7_amended_never_fails []

/-- Claim C8 counterexample: a row whose branch cell is missing is not
skipped — it is loaded as a record whose branch is the literal string
`"nan"` (with the other fields stripped), and sits in the index. -/
theorem C8_counterexample :
    load_csv [⟨some (pystr " Delhi "), some (pystr "X"), none, pystr "I9"⟩] =
      Except.ok [⟨pystr "Delhi", pystr "X", pystr "nan", pystr "I9"⟩] :=
  congrArg Except.ok (by decide)

/-- Claim C8 as amended: no row is ever skipped and no count of skipped
rows exists — loading yields exactly one record per input row, a missing
key field being rendered as the string `"nan"` — and no error reaches the
caller. -/
theorem C8_amended_rows_kept (rows : List RawRow) :
    ∃ recs, load_csv rows = Except.ok recs ∧ recs.length = rows.length ∧
      ∀ raw ∈ rows, raw.branch = none →
        stripRow raw ∈ recs ∧ (stripRow raw).branch = pystr "nan" := by
  refine ⟨loadRecords rows, rfl, by simp [loadRecords], ?_⟩
  intro raw hraw hnone
  refine ⟨List.mem_map_of_mem _ hraw, ?_⟩
  show pyStrip (cellStr raw.branch) = pystr "nan"
  rw [hnone]
  decide

/-- Claim C8 witness: instantiated at a one-row dataset with a missing
branch cell. -/
theorem C8_amended_rows_kept_witness :
    ∃ recs, load_csv [⟨some (pystr "Delhi"), some (pystr "X"), none, pystr "I9"⟩] =
        Except.ok recs ∧ recs.length = 1 ∧
      ∀ raw ∈ [(⟨some (pystr "Delhi"), some (pystr "X"), none, pystr "I9"⟩ : RawRow)],
        raw.branch = none →
          stripRow raw ∈ recs ∧ (stripRow raw).branch = pystr "nan" :=
  C8_amended_rows_kept [⟨some (pystr "Delhi"), some (pystr "X"), none, pystr "I9"⟩]

/-- Claim C9 counterexample: the region `"New Delhi"` is present, yet the
whitespace variation `"new  delhi"` (doubled interior space) fails to
resolve at any tier: normalisation removes only leading and trailing
whitespace, so the exact tier misses and the search returns nothing. -/
theorem C9_counterexample :
    dfNewDelhi = [recNewDelhi] ∧
      search_ifsc dfNewDelhi (pystr "new  delhi") (pystr "x") (pystr "b") =
        ([], some []) :=
  ⟨by decide, by decide⟩

/-- Claim C9 as amended: any query whose fields normalise — by trimming
leading/trailing whitespace and case-folding — to a loaded record's
case-folded fields resolves that record at the exact-match tier (interior
whitespace must already agree). -/
theorem C9_amended_variation (rows : List RawRow) (r : Record) (vs vb vbr : PyStr)
    (h : r ∈ loadRecords rows) (hs : pyNorm vs = pyLower r.state)
    (hb : pyNorm vb = pyLower r.bank) (hbr : pyNorm vbr = pyLower r.branch) :
    r ∈ (search_ifsc (loadRecords rows) vs vb vbr).1 ∧
      (search_ifsc (loadRecords rows) vs vb vbr).2 = none := by
  have hmem : r ∈ exactMatches (loadRecords rows) (pyNorm vs) (pyNorm vb) (pyNorm vbr) := by
    rw [hs, hb, hbr]
    refine List.mem_filter.mpr ⟨h, ?_⟩
    simp
  rw [search_ifsc, if_neg (List.ne_nil_of_mem hmem)]
  exact ⟨hmem, rfl⟩

/-- Claim C9 witness: a cased, space-padded variation of each field of
the interior-space record still resolves at the exact tier. -/
theorem C9_amended_variation_witness :
    recNewDelhi ∈ (search_ifsc (loadRecords [rowNewDelhi]) (pystr "  nEw DeLhI ")
        (pystr " X") (pystr "b ")).1 ∧
      (search_ifsc (loadRecords [rowNewDelhi]) (pystr "  nEw DeLhI ")
        (pystr " X") (pystr "b ")).2 = none :=
  C9_amended_variation [rowNewDelhi] recNewDelhi (pystr "  nEw DeLhI ")
    (pystr " X") (pystr "b ") (by decide) (by decide) (by decide) (by decide)

/-- A scope row whose branch matches the regex `"."` (any character) but
contains no literal dot. -/
def recDot : Record := ⟨pystr "Delhi", pystr "X", pystr "AB", pystr "I5"⟩

/-- Dataset holding only that row. -/
def dfDot : List Record := loadRecords
  [⟨some (pystr "Delhi"), some (pystr "X"), some (pystr "AB"), pystr "I5"⟩]

/-- Claim C10 counterexample: at the branch query `"."` the exact tier
fails, and line 92's regex semantics (modelled for this pattern class by
`partialMatchesRe`) return the branch `"AB"` — `.` matches any character
— while the partial-substring match set is empty: the program does not
return the partial-substring match set for metacharacter patterns. -/
theorem C10_counterexample :
    exactMatches dfDot (pyNorm (pystr "delhi")) (pyNorm (pystr "x"))
        (pyNorm (pystr ".")) = [] ∧
      partialMatchesRe dfDot (pyNorm (pystr "delhi")) (pyNorm (pystr "x"))
        (pyNorm (pystr ".")) = [recDot] ∧
      partialMatches dfDot (pyNorm (pystr "delhi")) (pyNorm (pystr "x"))
        (pyNorm (pystr ".")) = [] :=
  ⟨by decide, by decide, by decide⟩

/-- Claim C10 as amended: for every query whose normalised branch token
is free of regex metacharacters — so that line 92's regex containment is
literal substring containment, `partialMatchesRe` agreeing with
`partialMatches` — whenever the exact tier fails the search returns the
partial-substring matches and the fuzzy suggestions together: the
suggestions drawn from the full (state, bank) branch pool before partial
filtering, present even when partial matches exist, and the suggestion
value is `none` exactly when an exact match succeeds.  (For
metacharacter patterns the program applies regex semantics instead, and
an invalid pattern such as `"("` raises `re.error` rather than
returning.) -/
theorem C10_structure (df : List Record) (s b br : PyStr)
    (hfree : regexFree (pyNorm br) = true) :
    partialMatchesRe df (pyNorm s) (pyNorm b) (pyNorm br) =
        partialMatches df (pyNorm s) (pyNorm b) (pyNorm br) ∧
      ((search_ifsc df s b br).2 = none ↔
        exactMatches df (pyNorm s) (pyNorm b) (pyNorm br) ≠ []) ∧
      (exactMatches df (pyNorm s) (pyNorm b) (pyNorm br) = [] →
        search_ifsc df s b br =
          (partialMatches df (pyNorm s) (pyNorm b) (pyNorm br),
            some (get_close_matches (pyNorm br)
              (scopePool df (pyNorm s) (pyNorm b)) 3 (Rat.divInt 2 5)))) := by
  refine ⟨partialMatchesRe_eq df _ _ _ hfree, ?_⟩
  rw [search_ifsc]
  by_cases hE : exactMatches df (pyNorm s) (pyNorm b) (pyNorm br) = []
  · rw [if_pos hE]
    constructor
    · simp [hE]
    · intro _
      rfl
  · rw [if_neg hE]
    constructor
    · simp [hE]
    · intro hc
      exact absurd hc hE

/-- Claim C10 witness: for the scenario-1 dataset and the
metacharacter-free branch query `"xyz"` that matches nothing exactly,
the regex and substring filters agree and the returned pair is literally
the partial matches plus the full-pool suggestions. -/
theorem C10_structure_witness :
    partialMatchesRe dfHdfc (pyNorm (pystr "delhi")) (pyNorm (pystr "hdfc bank"))
        (pyNorm (pystr "xyz")) =
      partialMatches dfHdfc (pyNorm (pystr "delhi")) (pyNorm (pystr "hdfc bank"))
        (pyNorm (pystr "xyz")) ∧
      ((search_ifsc dfHdfc (pystr "delhi") (pystr "hdfc bank") (pystr "xyz")).2 = none ↔
        exactMatches dfHdfc (pyNorm (pystr "delhi")) (pyNorm (pystr "hdfc bank"))
          (pyNorm (pystr "xyz")) ≠ []) ∧
      (exactMatches dfHdfc (pyNorm (pystr "delhi")) (pyNorm (pystr "hdfc bank"))
          (pyNorm (pystr "xyz")) = [] →
        search_ifsc dfHdfc (pystr "delhi") (pystr "hdfc bank") (pystr "xyz") =
          (partialMatches dfHdfc (pyNorm (pystr "delhi")) (pyNorm (pystr "hdfc bank"))
              (pyNorm (pystr "xyz")),
            some (get_close_matches (pyNorm (pystr "xyz"))
              (scopePool dfHdfc (pyNorm (pystr "delhi")) (pyNorm (pystr "hdfc bank"))) 3
              (Rat.divInt 2 5)))) :=
  C10_structure dfHdfc (pystr "delhi") (pystr "hdfc bank") (pystr "xyz") (by decide)
